import Mathlib

/-!
Verification development for the GitIngest Manager tool
(`src/utils/gitingest_manager.py`).

The Python program is shallowly embedded: strings are Lean `String`
(lists of unicode code points, matching Python `str` semantics for
`len`, slicing and splitting), machine integers are `Int`/`Nat`
(Python integers are unbounded, so no modular arithmetic is needed),
external effects (the `gitingest` subprocess, the `tc` token counter,
`git config`, the GitHub HTTP API, `hashlib.md5`, the file system and
the prior contents of the JSON log) are passed in explicitly as an
environment, and fallible code returns `Except` where the Python
raises.  All definitions are executable and structurally recursive so
that concrete runs evaluate inside the kernel.

Python string helpers are reimplemented over `String.data` rather than
via the corresponding core `String` functions so that every definition
reduces definitionally (core `String.splitOn` is defined by
well-founded recursion and does not).
-/

namespace GitIngest

/-! ## Python string primitives -/

/-- Length of a Python `str` (number of code points, `len(s)`). -/
def pyLen (s : String) : Nat := s.data.length

/-- Whitespace test used by Python `str.strip` / `str.split` (ASCII
whitespace suffices for the strings this program handles). -/
def isWs (c : Char) : Bool := c.isWhitespace

/-- Python `s.strip()`: remove leading and trailing whitespace. -/
def pyStrip (s : String) : String :=
  String.mk (((s.data.dropWhile isWs).reverse.dropWhile isWs).reverse)

/-- Worker for `s.split()` with no separator: split on whitespace runs,
dropping empty pieces.  The accumulator holds the current (reversed)
word. -/
def splitWsGo : List Char → List Char → List (List Char)
  | [], acc => if acc.isEmpty then [] else [acc.reverse]
  | c :: cs, acc =>
    if isWs c then
      if acc.isEmpty then splitWsGo cs [] else acc.reverse :: splitWsGo cs []
    else splitWsGo cs (c :: acc)

/-- Python `s.split()` (no argument): whitespace-delimited tokens. -/
def pySplitWs (s : String) : List String :=
  (splitWsGo s.data []).map String.mk

/-- Worker for `s.split(sep)` with a non-empty separator, fuelled to
stay structurally recursive.  The fuel is at least the length of the
remaining input, so the fuel-exhausted branch is never reached. -/
def splitOnGo (sep : List Char) : Nat → List Char → List Char → List (List Char)
  | _, [], acc => [acc.reverse]
  | 0, cs, acc => [acc.reverse ++ cs]
  | n + 1, c :: cs, acc =>
    if sep.isPrefixOf (c :: cs) then
      acc.reverse :: splitOnGo sep n ((c :: cs).drop sep.length) []
    else
      splitOnGo sep n cs (c :: acc)

/-- Python `s.split(sep)` for a non-empty separator. -/
def pySplitOn (s sep : String) : List String :=
  (splitOnGo sep.data s.data.length s.data []).map String.mk

/-- Python `needle in hay` (substring containment). -/
def pyContains (hay needle : String) : Bool :=
  (pySplitOn hay needle).length != 1

/-- Python `hay.count(needle)`: non-overlapping left-to-right
occurrence count. -/
def pyCountSubstr (hay needle : String) : Nat :=
  (pySplitOn hay needle).length - 1

/-- Python `s.startswith(p)`. -/
def pyStartsWith (s p : String) : Bool := p.data.isPrefixOf s.data

/-- Python `s.endswith(p)`. -/
def pyEndsWith (s p : String) : Bool := p.data.isSuffixOf s.data

/-- Python `s[:-n]` for `n ≤ len(s)` (used as `remote_url[:-4]`). -/
def pyDropRight (s : String) (n : Nat) : String :=
  String.mk (s.data.take (s.data.length - n))

/-- Python `s[n:]`. -/
def pyDrop (s : String) (n : Nat) : String :=
  String.mk (s.data.drop n)

/-- Digit-run validity for Python `int(s)`: digits with single
underscores strictly between digits (`int("1_000")` parses,
`int("_1")`, `int("1__0")`, `int("1_")` do not). -/
def validTail : List Char → Bool
  | [] => true
  | ['_'] => false
  | '_' :: d :: cs => d.isDigit && validTail cs
  | c :: cs => c.isDigit && validTail cs

/-- A non-empty digit run starting with a digit. -/
def validDigitRun : List Char → Bool
  | [] => false
  | c :: cs => c.isDigit && validTail cs

/-- Numeric value of a digit run, skipping the separating
underscores. -/
def digitsToNat (acc : Nat) : List Char → Nat
  | [] => acc
  | c :: cs =>
    if c = '_' then digitsToNat acc cs
    else digitsToNat (acc * 10 + (c.toNat - '0'.toNat)) cs

/-- Python `int(s)`: optional surrounding whitespace, optional sign,
then an underscore-separated digit run; `none` models the
`ValueError` raised on anything else. -/
def pyInt (s : String) : Option Int :=
  let cs := (pyStrip s).data
  match cs with
  | '+' :: rest =>
    if validDigitRun rest then some (Int.ofNat (digitsToNat 0 rest)) else none
  | '-' :: rest =>
    if validDigitRun rest then some (-(Int.ofNat (digitsToNat 0 rest))) else none
  | _ =>
    if validDigitRun cs then some (Int.ofNat (digitsToNat 0 cs)) else none

/-- Index of the last `.` in a name (Python `name.rfind('.')`),
as an `Option` instead of the `-1` sentinel. -/
def lastDotIdxGo (i : Nat) (best : Option Nat) : List Char → Option Nat
  | [] => best
  | c :: cs => lastDotIdxGo (i + 1) (if c = '.' then some i else best) cs

/-- `pathlib.PurePath.stem`: the final component without its last
suffix; the suffix exists only when the last dot index `i` satisfies
`0 < i < len(name) - 1`. -/
def pyStem (name : String) : String :=
  let cs := name.data
  match lastDotIdxGo 0 none cs with
  | some i => if 0 < i && i + 1 < cs.length then String.mk (cs.take i) else name
  | none => name

/-! ## Configuration data model (`gitingest.yaml`) -/

/-- One entry of the `profiles:` mapping. -/
structure ProfileConfig where
  description : String
  additional_exclusions : List String
deriving DecidableEq, Repr

/-- The per-repository `metadata:` block written by a successful
ingest. -/
structure IngestMetadata where
  last_updated : String
  token_count : Int
  character_count : Nat
  file_count : Nat
  last_file : String
  profile : String
  hash : String
deriving DecidableEq, Repr

/-- One entry of the `repositories:` mapping. -/
structure RepoConfig where
  source : String
  description : String
  exclusions : List String
  metadata : Option IngestMetadata
deriving DecidableEq, Repr

/-- The `settings:` block.  `default_max_size = none` models an absent
key (`dict.get` returning `None`). -/
structure Settings where
  output_dir : String
  token_counter : String
  default_max_size : Option Nat
deriving DecidableEq, Repr

/-- The whole configuration document.  Mappings are association lists
in document order (Python dicts preserve insertion order and have
unique keys). -/
structure Config where
  settings : Settings
  repositories : List (String × RepoConfig)
  profiles : List (String × ProfileConfig)
deriving DecidableEq, Repr

/-! ## External process outcomes -/

/-- Result of a `subprocess.run(..., check=True)` call: either the
captured stdout, or the stderr of a `CalledProcessError` (non-zero
exit). -/
inductive RunOutcome where
  | ok (stdout : String)
  | err (stderr : String)
deriving DecidableEq, Repr

/-! ## `_get_exclusions` and `_build_gitingest_command` -/

/-- `GitIngestManager._get_exclusions` (lines 41-54): base exclusions
of the repository, then the additional exclusions of a known profile;
an unknown profile contributes nothing.  The Python `.copy()` means
the stored list is never mutated, which the pure embedding reflects by
leaving `cfg` untouched.  `.error` models the `ValueError` for an
unknown repository. -/
def getExclusions (cfg : Config) (repoName profile : String) :
    Except String (List String) :=
  match cfg.repositories.lookup repoName with
  | none => .error ("ValueError: Repository " ++ repoName ++ " not found in configuration")
  | some repoConfig =>
    match cfg.profiles.lookup profile with
    | some profileConfig => .ok (repoConfig.exclusions ++ profileConfig.additional_exclusions)
    | none => .ok repoConfig.exclusions

/-- The additional exclusions a profile name contributes (empty for an
unknown profile). -/
def profileExtra (cfg : Config) (profile : String) : List String :=
  match cfg.profiles.lookup profile with
  | some pc => pc.additional_exclusions
  | none => []

/-- The optional `['-s', str(max_size)]` arguments; note the Python
truthiness test `if max_size:` also skips an explicit `0`. -/
def sizeArgs (cfg : Config) : List String :=
  match cfg.settings.default_max_size with
  | some m => if m != 0 then ["-s", toString m] else []
  | none => []

/-- `GitIngestManager._build_gitingest_command` (lines 56-73).  The
direct subscript `config['repositories'][repo_name]` on line 58 runs
before `_get_exclusions`, so an unknown repository raises `KeyError`
here. -/
def buildGitingestCommand (cfg : Config) (repoName outputFile profile : String) :
    Except String (List String) :=
  match cfg.repositories.lookup repoName with
  | none => .error ("KeyError: " ++ repoName)
  | some repoConfig =>
    match getExclusions cfg repoName profile with
    | .error e => .error e
    | .ok exclusions =>
      let cmd := ["gitingest", repoConfig.source, "-o", outputFile]
      let cmd :=
        match cfg.settings.default_max_size with
        | some maxSize => if maxSize != 0 then cmd ++ ["-s", toString maxSize] else cmd
        | none => cmd
      .ok (cmd ++ exclusions.flatMap (fun e => ["-e", e]))

/-! ## `_count_tokens` -/

/-- `GitIngestManager._count_tokens` (lines 75-114).
`counterExists` models `Path(self.token_counter).exists()`, `run` the
`tc` subprocess, `content` the decoded text of the file being
measured.  The token count is an `Int` because `int(...)` can parse a
sign; the fallback estimate is `char_count // 4`.  `.error` models the
two uncaught `ValueError`s of the stdout-parsing path (the
`except` clause catches only `CalledProcessError`). -/
def countTokens (counterExists : Bool) (run : RunOutcome) (content : String) :
    Except String (Int × Nat) :=
  if counterExists = false then
    .ok (Int.ofNat (pyLen content / 4), pyLen content)
  else
    match run with
    | .err _ => .ok (Int.ofNat (pyLen content / 4), pyLen content)
    | .ok stdout =>
      match pySplitWs (pyStrip stdout) with
      | [] => .error "ValueError: Unable to parse token counter output"
      | p :: _ =>
        match pyInt p with
        | none => .error ("ValueError: invalid literal for int with base 10: " ++ p)
        | some n => .ok (n, pyLen content)

/-- The leading integer of the counter stdout, if any: `none` exactly
when `_count_tokens` raises on a successful counter run. -/
def pyFirstTokenInt (stdout : String) : Option Int :=
  match pySplitWs (pyStrip stdout) with
  | [] => none
  | p :: _ => pyInt p

/-! ## `_format_token_count` -/

/-- Round-half-even division `n / d` to the nearest integer, the
rounding Python `format` applies for `:.1f` (modelled on the exact
rational `count / 1e6`; the binary double can differ at exact decimal
ties, e.g. `1.05` is stored slightly above `1.05`). -/
def roundHalfEvenDiv (n d : Nat) : Nat :=
  let q := n / d
  let r := n % d
  if 2 * r < d then q
  else if d < 2 * r then q + 1
  else if q % 2 = 0 then q else q + 1

/-- `f"{count / 1_000_000:.1f}"` for a count in the millions branch:
tenths of millions, rounded half-even, printed with one decimal. -/
def fmtMillions (count : Int) : String :=
  let t := roundHalfEvenDiv count.toNat 100000
  toString (t / 10) ++ "." ++ toString (t % 10)

/-- `GitIngestManager._format_token_count` (lines 121-128). -/
def formatTokenCount (count : Int) : String :=
  if count ≥ 1000000 then fmtMillions count ++ "M"
  else if count ≥ 1000 then toString (count / 1000) ++ "k"
  else toString count

/-! ## `_get_github_version` -/

/-- Strip a trailing `.git` from the remote URL (lines 144-145). -/
def stripDotGit (s : String) : String :=
  if pyEndsWith s ".git" then pyDropRight s 4 else s

/-- Python `list[-2:]`: the last at-most-two elements. -/
def lastTwo (l : List String) : List String := l.drop (l.length - 2)

/-- The GitHub latest-release endpoint for an owner/repo pair
(line 150). -/
def apiUrlFor (owner repo : String) : String :=
  "https://api.github.com/repos/" ++ owner ++ "/" ++ repo ++ "/releases/latest"

/-- Strip a leading `v` from a release tag (lines 157-158). -/
def stripLeadingV (tag : String) : String :=
  if pyStartsWith tag "v" then pyDrop tag 1 else tag

/-- Outcome of the `requests.get` + `.json()` pair: `raises` covers a
timeout or connection error of `get` itself; on a response,
`body = .error ()` models `.json()` raising on a malformed body and
`body = .ok tag` a parsed object whose optional `tag_name` field is
`tag` (`none` when the key is absent, `data.get` then yields `""`). -/
inductive ApiOutcome where
  | raises (msg : String)
  | resp (status : Nat) (body : Except Unit (Option String))
deriving Repr

/-- Environment of `_get_github_version`: the `git config --get
remote.origin.url` subprocess and the HTTP behaviour per URL. -/
structure VersionEnv where
  gitRemote : RunOutcome
  http : String → ApiOutcome

/-- `GitIngestManager._get_github_version` (lines 130-166).  Every
handled failure returns `.ok none` (the Python `return None`); the
`.error` branch is the uncaught `IndexError` of `parts[1]` when a
remote URL containing `github.com` has fewer than two `/`-separated
segments. -/
def getGithubVersion (env : VersionEnv) : Except String (Option String) :=
  match env.gitRemote with
  | .err _ => .ok none
  | .ok out =>
    let remoteUrl := pyStrip out
    if pyContains remoteUrl "github.com" then
      let remoteUrl := stripDotGit remoteUrl
      match lastTwo (pySplitOn remoteUrl "/") with
      | p0 :: p1 :: _ =>
        match env.http (apiUrlFor p0 p1) with
        | .raises _ => .ok none
        | .resp status body =>
          if status = 200 then
            match body with
            | .error _ => .ok none
            | .ok tagOpt => .ok (some (stripLeadingV (tagOpt.getD "")))
          else .ok none
      | _ => .error "IndexError: list index out of range"
    else .ok none

/-! ## `_save_ingestion_log` -/

/-- One record of `ingestion_log.json`. -/
structure LogEntry where
  timestamp : String
  repository : String
  profile : String
  file : String
  tokens : Int
  characters : Nat
  files : Nat
  hash : String
deriving DecidableEq, Repr

/-- State of the log file before a write: `none` when
`ingestion_log.json` is absent, `some (.error ())` when it exists but
`json.load` fails on it, `some (.ok l)` when it parses to the list
`l`. -/
abbrev LogFileState := Option (Except Unit (List LogEntry))

/-- `GitIngestManager._save_ingestion_log` (lines 241-266): load the
existing log (an absent file starts from `[]`), append the entry, and
rewrite the whole document.  A present-but-unparseable file makes
`json.load` raise `JSONDecodeError`, which nothing catches: that is
the `.error` branch. -/
def saveIngestionLog (prior : LogFileState) (entry : LogEntry) :
    Except String (List LogEntry) :=
  match prior with
  | none => .ok [entry]
  | some (.ok l) => .ok (l ++ [entry])
  | some (.error _) => .error "json.decoder.JSONDecodeError"

/-! ## `ingest` — the central pipeline -/

/-- Python truthiness of the optional `version` argument: `None` and
`""` are falsy (`if not version:`). -/
def pyTruthyStrOpt : Option String → Bool
  | some s => s != ""
  | none => false

/-- `Path(output_dir) / filename` rendered with `str`. -/
def pathJoin (dir file : String) : String := dir ++ "/" ++ file

/-- Replace the `metadata` block of one repository and keep everything
else (`repo_config['metadata'] = {...}` followed by
`_save_config()`). -/
def updateRepoMetadata (cfg : Config) (repoName : String) (md : IngestMetadata) :
    Config :=
  { cfg with
    repositories := cfg.repositories.map fun p =>
      if p.1 = repoName then (p.1, { p.2 with metadata := some md }) else p }

/-- Environment of one `ingest` run: the loaded configuration, the
`datetime.now()` timestamp string, the `gitingest` subprocess, the
content the subprocess wrote to the temporary file on success, whether
a temporary file exists after a failed run, the token counter, the
version-resolution environment, the `hashlib.md5(...).hexdigest()[:8]`
digest of a file content, and the prior state of the log file. -/
structure IngestEnv where
  cfg : Config
  timestamp : String
  gitingestOutcome : RunOutcome
  tempFileWritten : Bool
  tempContent : String
  counterExists : Bool
  counterOutcome : RunOutcome
  version : VersionEnv
  hashFn : String → String
  priorLog : LogFileState

/-- How an `ingest` call ends: normally, through `sys.exit(1)`, or by
an uncaught exception. -/
inductive ExitStatus where
  | success
  | fatalExit (code : Nat)
  | raised (msg : String)
deriving DecidableEq, Repr

/-- The externally visible effects of one `ingest` call: the command
actually run (if any), the final artifact (name and content) if one
was created, the configuration written back (if `_save_config` ran),
the new log document (if the log was rewritten), and whether the
temporary file is left behind. -/
structure IngestOutcome where
  exit : ExitStatus
  cmdRun : Option (List String)
  finalFile : Option (String × String)
  configSaved : Option Config
  logWritten : Option (List LogEntry)
  tempFileRemains : Bool
deriving DecidableEq, Repr

/-- `GitIngestManager.ingest` (lines 168-239), as a function from the
environment to its effects.  The order of the source is kept: build
the command (line 178, where an unknown repository raises), run it
(line 182; a non-zero exit is the `sys.exit(1)` path with temp-file
cleanup), count tokens (line 187; a stdout-parse failure raises and
leaves the temporary file behind), count code fences (line 192),
resolve the version (lines 195-200, substituting `"latest"` for a
falsy result; an `IndexError` there also propagates), rename to the
final name (lines 203-209), write the metadata block and save the
configuration (lines 212-224), then append the log entry (line 225;
an unreadable log raises after the config was already saved). -/
def ingest (env : IngestEnv) (repoName profile : String)
    (versionArg : Option String) : IngestOutcome :=
  let tempFilename := repoName ++ "_temp_" ++ env.timestamp ++ ".md"
  let tempPath := pathJoin env.cfg.settings.output_dir tempFilename
  match buildGitingestCommand env.cfg repoName tempPath profile with
  | .error msg =>
    { exit := .raised msg, cmdRun := none, finalFile := none,
      configSaved := none, logWritten := none, tempFileRemains := false }
  | .ok cmd =>
    match env.gitingestOutcome with
    | .err _ =>
      { exit := .fatalExit 1, cmdRun := some cmd, finalFile := none,
        configSaved := none, logWritten := none, tempFileRemains := false }
    | .ok _ =>
      let content := env.tempContent
      match countTokens env.counterExists env.counterOutcome content with
      | .error msg =>
        { exit := .raised msg, cmdRun := some cmd, finalFile := none,
          configSaved := none, logWritten := none, tempFileRemains := true }
      | .ok counts =>
        let tokenCount := counts.1
        let charCount := counts.2
        let fileCount := pyCountSubstr content "\n```"
        let resolved : Except String String :=
          if pyTruthyStrOpt versionArg then .ok (versionArg.getD "")
          else
            match getGithubVersion env.version with
            | .error m => .error m
            | .ok v =>
              .ok (match v with
                   | some t => if t != "" then t else "latest"
                   | none => "latest")
        match resolved with
        | .error m =>
          { exit := .raised m, cmdRun := some cmd, finalFile := none,
            configSaved := none, logWritten := none, tempFileRemains := true }
        | .ok version =>
          let humanTokenCount := formatTokenCount tokenCount
          let finalFilename := repoName ++ "_" ++ version ++ "_" ++ humanTokenCount ++ ".md"
          let md : IngestMetadata :=
            { last_updated := env.timestamp, token_count := tokenCount,
              character_count := charCount, file_count := fileCount,
              last_file := finalFilename, profile := profile,
              hash := env.hashFn content }
          let cfgSaved := updateRepoMetadata env.cfg repoName md
          let entry : LogEntry :=
            { timestamp := env.timestamp, repository := repoName,
              profile := profile, file := finalFilename,
              tokens := tokenCount, characters := charCount,
              files := fileCount, hash := md.hash }
          match saveIngestionLog env.priorLog entry with
          | .error m =>
            { exit := .raised m, cmdRun := some cmd,
              finalFile := some (finalFilename, content),
              configSaved := some cfgSaved, logWritten := none,
              tempFileRemains := false }
          | .ok newLog =>
            { exit := .success, cmdRun := some cmd,
              finalFile := some (finalFilename, content),
              configSaved := some cfgSaved, logWritten := some newLog,
              tempFileRemains := false }

/-! ## `clean_old` -/

/-- A file of the output directory: its name (final path component),
`st_mtime` and `st_size`. -/
structure FsFile where
  name : String
  mtime : Nat
  size : Nat
deriving DecidableEq, Repr

/-- Does the file match the `"*.md"` glob pattern
(`fnmatch` semantics: any name ending in `.md`)? -/
def isMd (f : FsFile) : Bool := pyEndsWith f.name ".md"

/-- The grouping key of `clean_old` (line 316-318): the text before
the first underscore of the filename stem. -/
def repoKey (f : FsFile) : String :=
  (pySplitOn (pyStem f.name) "_").headD ""

/-- Stable insertion of a file into a list sorted by modification time
descending: the file goes after every earlier file with an equal or
newer mtime, matching Python `list.sort(key=..., reverse=True)`
stability. -/
def insertDesc (x : FsFile) : List FsFile → List FsFile
  | [] => [x]
  | y :: ys => if y.mtime < x.mtime then x :: y :: ys else y :: insertDesc x ys

/-- Stable sort by modification time, newest first (line 329). -/
def sortByMtimeDesc (l : List FsFile) : List FsFile :=
  l.foldl (fun acc x => insertDesc x acc) []

/-- The `.md` files of the directory that fall into the group of key
`k`, in directory order. -/
def groupFiles (dir : List FsFile) (k : String) : List FsFile :=
  dir.filter fun f => isMd f && repoKey f = k

/-- The files of group `k` that survive a `clean_old keep` run: the
first `keep` of the group sorted newest-first (line 332 deletes
`files[keep_latest:]`). -/
def keptFiles (keep : Nat) (dir : List FsFile) (k : String) : List FsFile :=
  (sortByMtimeDesc (groupFiles dir k)).take keep

/-- `GitIngestManager.clean_old` (lines 308-339) as the directory
contents it leaves behind: every non-`.md` file survives untouched,
and a `.md` file survives iff it is among the newest `keep` of its
group. -/
def cleanOld (keep : Nat) (dir : List FsFile) : List FsFile :=
  dir.filter fun f => !(isMd f) || decide (f ∈ keptFiles keep dir (repoKey f))

/-! ## Concrete instances used by witnesses and counterexamples -/

/-- The configuration of the end-to-end scenario of the spec: one
repository with two exclusion patterns and a `standard` profile adding
one more. -/
def scenarioCfg : Config :=
  { settings :=
      { output_dir := "digests", token_counter := "/usr/local/bin/tc",
        default_max_size := none },
    repositories := [("repo1",
      { source := "/src/repo1", description := "demo repository",
        exclusions := ["*.log", "node_modules"], metadata := none })],
    profiles := [("standard",
      { description := "standard profile", additional_exclusions := ["*.lock"] })] }

/-- A 4000-character file content, as written by the stub ingestion
command of the scenario. -/
def scenarioContent : String := String.mk (List.replicate 4000 'a')

/-- The environment of the end-to-end scenario: the ingestion command
succeeds and writes 4000 characters, the counter binary exists and
reports 1000 tokens, and version resolution fails (no git remote
configured). -/
def scenarioEnv : IngestEnv :=
  { cfg := scenarioCfg, timestamp := "20250101_120000",
    gitingestOutcome := .ok "", tempFileWritten := true,
    tempContent := scenarioContent, counterExists := true,
    counterOutcome := .ok "1000 digests/repo1_temp_20250101_120000.md",
    version := { gitRemote := .err "fatal: not a git repository",
                 http := fun _ => .raises "unused" },
    hashFn := fun _ => "ab12cd34", priorLog := none }

/-- Same scenario but the ingestion command exits non-zero. -/
def scenarioEnvGitFail : IngestEnv :=
  { scenarioEnv with gitingestOutcome := .err "gitingest: boom" }

/-- Same scenario but the counter succeeds with unparseable stdout. -/
def scenarioEnvBadCounter : IngestEnv :=
  { scenarioEnv with counterOutcome := .ok "garbage" }

/-- A version environment whose git remote URL contains `github.com`
but has no `/`-separated owner/repo segments. -/
def badRemoteEnv : VersionEnv :=
  { gitRemote := .ok "github.com", http := fun _ => .raises "unused" }

/-- A version environment for a successful release lookup. -/
def goodRemoteEnv : VersionEnv :=
  { gitRemote := .ok "https://github.com/octo/demo.git",
    http := fun u =>
      if u = apiUrlFor "octo" "demo" then .resp 200 (.ok (some "v3.1"))
      else .raises "wrong url" }

/-- A concrete log entry. -/
def sampleEntry : LogEntry :=
  { timestamp := "20250101_120000", repository := "repo1",
    profile := "standard", file := "repo1_latest_1k.md",
    tokens := 1000, characters := 4000, files := 0, hash := "ab12cd34" }

/-- A concrete output directory: three `repo1` artifacts, one `repo2`
artifact, and the ingestion log. -/
def sampleDir : List FsFile :=
  [{ name := "repo1_latest_1k.md", mtime := 30, size := 10 },
   { name := "repo1_1.0_2k.md", mtime := 20, size := 11 },
   { name := "repo2_latest_3k.md", mtime := 10, size := 12 },
   { name := "ingestion_log.json", mtime := 5, size := 1 },
   { name := "repo1_0.9_1k.md", mtime := 25, size := 13 }]

end GitIngest

namespace GitIngest

/-! ## Theorems -/

/-- C3: for every non-negative count, the formatter yields the literal
integer below 1000, the truncated number of thousands with a `k`
suffix between 1000 and 999999, and a one-decimal millions figure
(nearest tenth of a million) with an `M` suffix from 1000000 on; in
particular `format 999 = "999"`, `format 1000 = "1k"`,
`format 1999 = "1k"` (truncated, not rounded) and
`format 1000000 = "1.0M"`. -/
theorem formatTokenCount_bands (c : Int) (h0 : 0 ≤ c) :
    (c < 1000 → formatTokenCount c = toString c) ∧
    (1000 ≤ c → c < 1000000 → formatTokenCount c = toString (c / 1000) ++ "k") ∧
    (1000000 ≤ c → ∃ t : Nat,
      formatTokenCount c = toString (t / 10) ++ "." ++ toString (t % 10) ++ "M" ∧
      t * 100000 ≤ c.toNat + 50000 ∧ c.toNat ≤ t * 100000 + 50000) ∧
    formatTokenCount 999 = "999" ∧ formatTokenCount 1000 = "1k" ∧
    formatTokenCount 1999 = "1k" ∧ formatTokenCount 1000000 = "1.0M" := by
  refine ⟨?_, ?_, ?_, by decide, by decide, by decide, by decide⟩
  · intro h
    rw [formatTokenCount, if_neg (by omega), if_neg (by omega)]
  · intro h1 h2
    rw [formatTokenCount, if_neg (by omega), if_pos h1]
  · intro h
    refine ⟨roundHalfEvenDiv c.toNat 100000, ?_, ?_, ?_⟩
    · rw [formatTokenCount, if_pos h]
      rfl
    · rw [roundHalfEvenDiv]
      have hn : 1000000 ≤ c.toNat := by omega
      split
      · omega
      · split
        · omega
        · split <;> omega
    · rw [roundHalfEvenDiv]
      have hn : 1000000 ≤ c.toNat := by omega
      split
      · omega
      · split
        · omega
        · split <;> omega

/-- Witness for C3 at the concrete count 482000. -/
theorem formatTokenCount_bands_witness :
    formatTokenCount 482000 = toString ((482000 : Int) / 1000) ++ "k" :=
  (formatTokenCount_bands 482000 (by decide)).2.1 (by decide) (by decide)

/-- C4: for a known repository, the resolved exclusion list is the
base list followed by the known profile extras in order (its prefix of
the base length is the base list itself), an unknown profile
contributes nothing without error, and the command is the source,
`-o` output, optional `-s` size, then one `-e pattern` pair per
resolved pattern in the same order.  The Python `.copy()` means the
stored configuration is never mutated, which the pure embedding
reflects. -/
theorem exclusions_and_command (cfg : Config) (repoName profile out : String)
    (rc : RepoConfig) (h : cfg.repositories.lookup repoName = some rc) :
    getExclusions cfg repoName profile = .ok (rc.exclusions ++ profileExtra cfg profile) ∧
    (cfg.profiles.lookup profile = none →
      getExclusions cfg repoName profile = .ok rc.exclusions) ∧
    (rc.exclusions ++ profileExtra cfg profile).take rc.exclusions.length = rc.exclusions ∧
    buildGitingestCommand cfg repoName out profile =
      .ok (["gitingest", rc.source, "-o", out] ++ sizeArgs cfg ++
        (rc.exclusions ++ profileExtra cfg profile).flatMap (fun e => ["-e", e])) := by
  have hexc : getExclusions cfg repoName profile =
      .ok (rc.exclusions ++ profileExtra cfg profile) := by
    rw [getExclusions, h]
    cases hp : cfg.profiles.lookup profile <;> simp [profileExtra, hp]
  refine ⟨hexc, ?_, ?_, ?_⟩
  · intro hp
    rw [hexc, profileExtra, hp, List.append_nil]
  · exact List.take_left rc.exclusions (profileExtra cfg profile)
  · rw [buildGitingestCommand, h, hexc]
    cases hm : cfg.settings.default_max_size with
    | none => simp [sizeArgs, hm]
    | some m =>
      by_cases hz : m != 0 <;> simp [sizeArgs, hm, hz]

/-- Witness for C4 on the scenario configuration. -/
theorem exclusions_and_command_witness :
    getExclusions scenarioCfg "repo1" "standard" =
      .ok (["*.log", "node_modules"] ++ profileExtra scenarioCfg "standard") ∧
    buildGitingestCommand scenarioCfg "repo1" "out.md" "standard" =
      .ok (["gitingest", "/src/repo1", "-o", "out.md"] ++ sizeArgs scenarioCfg ++
        (["*.log", "node_modules"] ++ profileExtra scenarioCfg "standard").flatMap
          (fun e => ["-e", e])) := by
  have h := exclusions_and_command scenarioCfg "repo1" "standard" "out.md"
    { source := "/src/repo1", description := "demo repository",
      exclusions := ["*.log", "node_modules"], metadata := none } (by decide)
  exact ⟨h.1, h.2.2.2⟩

/-- C5: with the counter binary absent, or with the counter process
exiting non-zero, `_count_tokens` recovers (no exception) and returns
the estimate `char_count // 4` together with the exact character count
of the decoded file content. -/
theorem countTokens_fallback (run : RunOutcome) (content stderr : String) :
    countTokens false run content =
      .ok (Int.ofNat (pyLen content / 4), pyLen content) ∧
    countTokens true (.err stderr) content =
      .ok (Int.ofNat (pyLen content / 4), pyLen content) :=
  ⟨rfl, rfl⟩

/-- C6: when the counter process succeeds but its stdout has no
parseable leading integer (no tokens at all, or a first token that
`int` rejects), `_count_tokens` raises instead of falling back. -/
theorem countTokens_parse_raises (stdout content : String)
    (h : pyFirstTokenInt stdout = none) :
    ∃ msg, countTokens true (.ok stdout) content = .error msg := by
  rw [pyFirstTokenInt] at h
  rw [countTokens]
  cases hsp : pySplitWs (pyStrip stdout) with
  | nil =>
    exact ⟨"ValueError: Unable to parse token counter output", by simp [hsp]⟩
  | cons p rest =>
    rw [hsp] at h
    simp only [] at h
    exact ⟨"ValueError: invalid literal for int with base 10: " ++ p,
      by simp [hsp, h]⟩

/-- Witness for C6 on the stdout "garbage". -/
theorem countTokens_parse_raises_witness :
    pyFirstTokenInt "garbage" = none ∧
    ∃ msg, countTokens true (.ok "garbage") "abcd" = .error msg :=
  ⟨by decide, countTokens_parse_raises "garbage" "abcd" (by decide)⟩

/-- C8 counterexample: a log file that exists but is unreadable is not
treated as the empty sequence — `json.load` raises (no rewrite at all
happens), where the claim demands the result `[entry]`. -/
theorem saveIngestionLog_unreadable_not_empty :
    saveIngestionLog (some (Except.error ())) sampleEntry =
      Except.error "json.decoder.JSONDecodeError" := rfl

/-- C8 (amended): an absent log file is treated as the empty sequence
and every readable prior log is rewritten as the prior sequence
extended by exactly the one new entry; a present-but-unreadable log
file instead raises (`json.load` is uncaught). -/
theorem saveIngestionLog_appends (entry : LogEntry) (l : List LogEntry) :
    saveIngestionLog none entry = .ok [entry] ∧
    saveIngestionLog (some (.ok l)) entry = .ok (l ++ [entry]) ∧
    saveIngestionLog (some (.error ())) entry =
      .error "json.decoder.JSONDecodeError" :=
  ⟨rfl, rfl, rfl⟩

/-- C10: `clean_old` only ever deletes files matching the `*.md` glob:
every file of the output directory not ending in `.md` — in particular
`ingestion_log.json` — survives every invocation, and every deleted
file ends in `.md`.  The configuration file does not live in the
output directory at all, so it is untouched as well. -/
theorem cleanOld_frame (keep : Nat) (dir : List FsFile) (f : FsFile)
    (hmem : f ∈ dir) (hmd : isMd f = false) :
    f ∈ cleanOld keep dir ∧
    ∀ g, g ∈ dir → g ∉ cleanOld keep dir → isMd g = true := by
  constructor
  · exact List.mem_filter.mpr ⟨hmem, by simp [hmd]⟩
  · intro g hg hng
    by_contra hgmd
    exact hng (List.mem_filter.mpr ⟨hg, by simp [Bool.eq_false_iff.mpr hgmd]⟩)

/-- Witness for C10: the ingestion log survives a clean of the sample
directory. -/
theorem cleanOld_frame_witness :
    ({ name := "ingestion_log.json", mtime := 5, size := 1 } : FsFile) ∈
      cleanOld 1 sampleDir :=
  (cleanOld_frame 1 sampleDir _ (by decide) (by decide)).1

/-- C7 counterexample: version resolution is not raise-free.  With a
configured remote URL `"github.com"` (it contains the expected host
but has no `/`-separated owner/repo segments), `parts[1]` raises an
uncaught `IndexError`. -/
theorem getGithubVersion_raises :
    getGithubVersion badRemoteEnv = .error "IndexError: list index out of range" :=
  rfl

/-- C7 (amended): whenever the remote lookup fails, the trimmed remote
URL does not contain `github.com`, the HTTP request (or its JSON
parse) raises, or the response status is not 200, resolution returns
no version without raising; on a 200 response the returned version is
the release tag of the endpoint built from the last two `/`-segments
of the URL (after stripping a trailing `.git`), with a leading `v`
stripped.  The exception: a `github.com` remote URL with fewer than
two `/`-segments raises an uncaught `IndexError` (see the
counterexample), so raise-freedom holds only for URLs with at least
two segments. -/
theorem getGithubVersion_cases (env : VersionEnv) :
    (∀ e, env.gitRemote = .err e → getGithubVersion env = .ok none) ∧
    (∀ out, env.gitRemote = .ok out →
      pyContains (pyStrip out) "github.com" = false →
      getGithubVersion env = .ok none) ∧
    (∀ out p0 p1 rest, env.gitRemote = .ok out →
      pyContains (pyStrip out) "github.com" = true →
      lastTwo (pySplitOn (stripDotGit (pyStrip out)) "/") = p0 :: p1 :: rest →
      (∀ m, env.http (apiUrlFor p0 p1) = .raises m →
        getGithubVersion env = .ok none) ∧
      (∀ st body, env.http (apiUrlFor p0 p1) = .resp st body → st ≠ 200 →
        getGithubVersion env = .ok none) ∧
      (env.http (apiUrlFor p0 p1) = .resp 200 (.error ()) →
        getGithubVersion env = .ok none) ∧
      (∀ tagOpt, env.http (apiUrlFor p0 p1) = .resp 200 (.ok tagOpt) →
        getGithubVersion env = .ok (some (stripLeadingV (tagOpt.getD ""))))) := by
  obtain ⟨git, http⟩ := env
  refine ⟨?_, ?_, ?_⟩
  · intro e he
    cases he
    rfl
  · intro out hout hcon
    cases hout
    rw [getGithubVersion]
    simp only [hcon, Bool.false_eq_true, if_false]
  · intro out p0 p1 rest hout hcon hparts
    cases hout
    rw [getGithubVersion]
    simp only [hcon, if_true, hparts]
    refine ⟨?_, ?_, ?_, ?_⟩
    · intro m hm
      simp only [hm]
    · intro st body hb hst
      simp only [hb]
      simp [hst]
    · intro hb
      simp only [hb]
      rfl
    · intro tagOpt hb
      simp only [hb]
      rfl

/-- Witness for C7 on a well-formed remote with a `v`-prefixed release
tag. -/
theorem getGithubVersion_cases_witness :
    getGithubVersion goodRemoteEnv = .ok (some "3.1") :=
  ((getGithubVersion_cases goodRemoteEnv).2.2
    "https://github.com/octo/demo.git" "octo" "demo" [] rfl (by decide)
    (by decide)).2.2.2 (some "v3.1") rfl

/-- C1 counterexample: the non-zero-exit path is not the only way the
pipeline aborts.  With the ingestion command succeeding but the
counter stdout unparseable, `ingest` ends in an uncaught exception
(a `ValueError` aborts the process) instead of degrading. -/
theorem ingest_aborts_without_gitingest_failure :
    scenarioEnvBadCounter.gitingestOutcome = .ok "" ∧
    (ingest scenarioEnvBadCounter "repo1" "standard" none).exit =
      .raised "ValueError: invalid literal for int with base 10: garbage" :=
  ⟨rfl, rfl⟩

/-- C1 (amended): when the ingestion command exits non-zero, `ingest`
prints the error and stderr, deletes the temporary file, creates no
final artifact, saves no metadata and no log entry, and calls
`sys.exit(1)`; conversely, the explicit exit-code-1 termination occurs
only on that path.  However it is not true that every other failure
degrades without aborting: a successful counter run with unparseable
stdout (and likewise a malformed `github.com` remote URL or an
unreadable log file) raises an uncaught exception — see the
counterexample. -/
theorem ingest_gitingest_failure (env : IngestEnv) (repoName profile : String)
    (versionArg : Option String) (stderr : String) (cmd : List String)
    (hcmd : buildGitingestCommand env.cfg repoName
      (pathJoin env.cfg.settings.output_dir
        (repoName ++ "_temp_" ++ env.timestamp ++ ".md")) profile = .ok cmd)
    (hrun : env.gitingestOutcome = .err stderr) :
    ingest env repoName profile versionArg =
      { exit := .fatalExit 1, cmdRun := some cmd, finalFile := none,
        configSaved := none, logWritten := none, tempFileRemains := false } ∧
    ∀ (env2 : IngestEnv) (rn pf : String) (va : Option String) (code : Nat),
      (ingest env2 rn pf va).exit = .fatalExit code →
      code = 1 ∧ ∃ s, env2.gitingestOutcome = .err s := by
  constructor
  · rw [ingest, hcmd, hrun]
  · intro env2 rn pf va code h
    rw [ingest] at h
    simp only [] at h
    split at h
    · simp at h
    · split at h
      · rename_i s heq
        simp at h
        exact ⟨by omega, s, heq⟩
      · split at h
        · simp at h
        · repeat' split at h
          all_goals simp at h

/-- Witness for C1: a concrete run whose ingestion command exits
non-zero. -/
theorem ingest_gitingest_failure_witness :
    ingest scenarioEnvGitFail "repo1" "standard" none =
      { exit := .fatalExit 1,
        cmdRun := some ["gitingest", "/src/repo1", "-o",
          "digests/repo1_temp_20250101_120000.md", "-e", "*.log", "-e",
          "node_modules", "-e", "*.lock"],
        finalFile := none, configSaved := none, logWritten := none,
        tempFileRemains := false } :=
  (ingest_gitingest_failure scenarioEnvGitFail "repo1" "standard" none
    "gitingest: boom" _ rfl rfl).1

/-- The code-fence marker never occurs in a run of `'a'`s, so
splitting on it returns the single remaining piece. -/
theorem splitOnGo_fence_replicate (fuel : Nat) :
    ∀ (n : Nat) (acc : List Char),
      splitOnGo ("\n```".data) fuel (List.replicate n 'a') acc =
        [acc.reverse ++ List.replicate n 'a'] := by
  have hpf : ∀ (l : List Char), ("\n```".data).isPrefixOf ('a' :: l) = false :=
    fun l => rfl
  induction fuel with
  | zero =>
    intro n acc
    cases n <;> simp [splitOnGo, List.replicate_succ]
  | succ m ih =>
    intro n acc
    cases n with
    | zero => simp [splitOnGo]
    | succ k =>
      rw [List.replicate_succ]
      rw [show splitOnGo ("\n```".data) (m + 1) ('a' :: List.replicate k 'a') acc =
            splitOnGo ("\n```".data) m (List.replicate k 'a') ('a' :: acc) from by
        simp [splitOnGo, hpf]]
      rw [ih]
      simp

/-- The scenario content has 4000 characters. -/
theorem scenarioContent_len : pyLen scenarioContent = 4000 := by
  show (List.replicate 4000 'a').length = 4000
  rw [List.length_replicate]

/-- The scenario content contains no code fence. -/
theorem scenarioContent_fences : pyCountSubstr scenarioContent "\n```" = 0 := by
  have hdata : scenarioContent.data = List.replicate 4000 'a' := rfl
  have hsplit : pySplitOn scenarioContent "\n```" = [scenarioContent] := by
    have h1 : pySplitOn scenarioContent "\n```" =
        (splitOnGo ("\n```".data) scenarioContent.data.length
          scenarioContent.data []).map String.mk := rfl
    rw [h1, hdata, splitOnGo_fence_replicate]
    rfl
  rw [pyCountSubstr, hsplit]
  rfl

/-- C2: the end-to-end scenario.  With one repository carrying 2
exclusion patterns, the `standard` profile adding 1 more, a stub
ingestion command writing a 4000-character file and a stub counter
reporting 1000 tokens, `ingest("repo1")` invokes the command with
exactly 3 `-e` flags in original order, version resolution fails so
the final file is named `repo1_latest_1k.md`, and exactly one log
entry is appended, with `tokens = 1000` and `characters = 4000`. -/
theorem ingest_scenario :
    pyLen scenarioContent = 4000 ∧
    getGithubVersion scenarioEnv.version = .ok none ∧
    ingest scenarioEnv "repo1" "standard" none =
      { exit := .success,
        cmdRun := some ["gitingest", "/src/repo1", "-o",
          "digests/repo1_temp_20250101_120000.md", "-e", "*.log", "-e",
          "node_modules", "-e", "*.lock"],
        finalFile := some ("repo1_latest_1k.md", scenarioContent),
        configSaved := some (updateRepoMetadata scenarioCfg "repo1"
          { last_updated := "20250101_120000", token_count := 1000,
            character_count := 4000, file_count := 0,
            last_file := "repo1_latest_1k.md", profile := "standard",
            hash := "ab12cd34" }),
        logWritten := some [sampleEntry],
        tempFileRemains := false } ∧
    sampleEntry.tokens = 1000 ∧ sampleEntry.characters = 4000 ∧
    ((ingest scenarioEnv "repo1" "standard" none).cmdRun.getD []).count "-e" = 3 := by
  have hcount : countTokens scenarioEnv.counterExists scenarioEnv.counterOutcome
      scenarioEnv.tempContent = .ok (1000, 4000) := by
    have hstep : countTokens scenarioEnv.counterExists scenarioEnv.counterOutcome
        scenarioEnv.tempContent = .ok (1000, pyLen scenarioContent) := rfl
    rw [hstep, scenarioContent_len]
  have hfc : pyCountSubstr scenarioEnv.tempContent "\n```" = 0 :=
    scenarioContent_fences
  refine ⟨scenarioContent_len, rfl, ?_, rfl, rfl, ?_⟩
  · rw [ingest]
    simp only []
    rw [hcount, hfc]
    rfl
  · rfl

/-- Inserting into a descending list is a permutation of consing. -/
theorem insertDesc_perm (x : FsFile) (l : List FsFile) :
    List.Perm (insertDesc x l) (x :: l) := by
  induction l with
  | nil => exact List.Perm.refl _
  | cons y ys ih =>
    rw [insertDesc]
    split
    · exact List.Perm.refl _
    · exact (ih.cons y).trans (List.Perm.swap x y ys)

/-- The insertion-sort fold is a permutation of the accumulator
followed by the input. -/
theorem foldl_insertDesc_perm (l : List FsFile) :
    ∀ acc, List.Perm (l.foldl (fun a x => insertDesc x a) acc) (acc ++ l) := by
  induction l with
  | nil => intro acc; simp
  | cons x xs ih =>
    intro acc
    have h1 := ih (insertDesc x acc)
    have h2 := (insertDesc_perm x acc).append_right xs
    exact (h1.trans h2).trans (List.perm_middle.symm)

/-- Sorting by modification time is a permutation. -/
theorem sortByMtimeDesc_perm (l : List FsFile) :
    List.Perm (sortByMtimeDesc l) l := by
  simpa using foldl_insertDesc_perm l []

/-- C9: retention idempotence.  Over any directory whose file names
are distinct, `clean_old` groups the `.md` files by the text before
the first underscore of the stem, keeps the newest `keep` of each
group and deletes exactly the rest, so a second run with no new
artifacts deletes nothing. -/
theorem cleanOld_idempotent (keep : Nat) (dir : List FsFile)
    (h : (dir.map FsFile.name).Nodup) :
    cleanOld keep (cleanOld keep dir) = cleanOld keep dir ∧
    ∀ f, f ∈ dir →
      (f ∉ cleanOld keep dir ↔
        isMd f = true ∧ f ∉ keptFiles keep dir (repoKey f)) := by
  have hdir : dir.Nodup := h.of_map
  constructor
  · refine List.filter_eq_self.mpr ?_
    intro f hf
    obtain ⟨hfdir, hfpred⟩ := List.mem_filter.mp hf
    by_cases hmd : isMd f
    · have key : f ∈ keptFiles keep (cleanOld keep dir) (repoKey f) := by
        have hsubset : groupFiles (cleanOld keep dir) (repoKey f) ⊆
            keptFiles keep dir (repoKey f) := by
          intro g hg
          obtain ⟨hgmem, hgpred⟩ := List.mem_filter.mp hg
          obtain ⟨hgdir, hgpred2⟩ := List.mem_filter.mp hgmem
          simp only [Bool.and_eq_true, decide_eq_true_eq] at hgpred
          obtain ⟨hgmd, hgkey⟩ := hgpred
          simp only [Bool.or_eq_true, Bool.not_eq_true',
            decide_eq_true_eq] at hgpred2
          rcases hgpred2 with h1 | h2
          · rw [hgmd] at h1; cases h1
          · exact hgkey ▸ h2
        have hnodupG : (groupFiles (cleanOld keep dir) (repoKey f)).Nodup := by
          have s1 : List.Sublist (groupFiles (cleanOld keep dir) (repoKey f))
              (cleanOld keep dir) := List.filter_sublist _
          have s2 : List.Sublist (cleanOld keep dir) dir := List.filter_sublist _
          exact (s1.trans s2).nodup hdir
        have hlenK : (keptFiles keep dir (repoKey f)).length ≤ keep :=
          List.length_take_le keep (sortByMtimeDesc (groupFiles dir (repoKey f)))
        have hlenG : (groupFiles (cleanOld keep dir) (repoKey f)).length ≤ keep :=
          le_trans (List.subperm_of_subset hnodupG hsubset).length_le hlenK
        have hlenS : (sortByMtimeDesc
            (groupFiles (cleanOld keep dir) (repoKey f))).length ≤ keep := by
          rw [(sortByMtimeDesc_perm _).length_eq]; exact hlenG
        have htake : keptFiles keep (cleanOld keep dir) (repoKey f) =
            sortByMtimeDesc (groupFiles (cleanOld keep dir) (repoKey f)) := by
          rw [keptFiles]; exact List.take_of_length_le hlenS
        rw [htake]
        refine (sortByMtimeDesc_perm _).mem_iff.mpr ?_
        exact List.mem_filter.mpr ⟨hf, by simp [hmd]⟩
      simp [key]
    · simp [Bool.eq_false_iff.mpr hmd]
  · intro f hf
    constructor
    · intro hnot
      by_cases hmd : isMd f
      · refine ⟨hmd, fun hkept => hnot ?_⟩
        exact List.mem_filter.mpr ⟨hf, by simp [hmd, hkept]⟩
      · exact absurd (List.mem_filter.mpr
          ⟨hf, by simp [Bool.eq_false_iff.mpr hmd]⟩) hnot
    · rintro ⟨hmd, hkept⟩ hmem
      obtain ⟨-, hpred⟩ := List.mem_filter.mp hmem
      simp only [hmd, Bool.not_true, Bool.false_or,
        decide_eq_true_eq] at hpred
      exact hkept hpred

/-- Witness for C9: cleaning the sample directory down to one file per
repository is idempotent. -/
theorem cleanOld_idempotent_witness :
    (sampleDir.map FsFile.name).Nodup ∧
    cleanOld 1 (cleanOld 1 sampleDir) = cleanOld 1 sampleDir :=
  ⟨by decide, (cleanOld_idempotent 1 sampleDir (by decide)).1⟩

end GitIngest
